import Mathlib

/-!
Verification development for the `fetch.py` IMAP inbox fetcher.

The program is embedded shallowly: Python dictionaries become association
lists, the IMAP session becomes an oracle giving the outcome of each fetch
attempt, logging becomes an event trace, and the dynamic typing of Python
values (the distinction between `bytes` and `str`, which matters for the
set difference on line 135 of the source) is captured by the `PyVal` type.
-/

namespace ImapFetch

/-- A Python `bytes` value: a list of byte values. -/
abbrev Bytes := List Nat

/-- A dynamically typed Python value as used for dictionary keys and set
elements in the program: either a `str` or a `bytes`.  Python equality
between a `bytes` and a `str` is always `False`, which the derived
decidable equality reproduces (distinct constructors are never equal). -/
inductive PyVal where
  | vstr (s : String)
  | vbytes (b : Bytes)
deriving DecidableEq

/-- Whether a `PyVal` is a Python `str`. -/
def PyVal.isStr : PyVal → Bool
  | .vstr _ => true
  | .vbytes _ => false

/-- The underlying string of a `str` value (unused for `bytes`). -/
def PyVal.asStr : PyVal → String
  | .vstr s => s
  | .vbytes _ => ""

/-! ### UTF-8 decoding (model of Python `bytes.decode`)

`utf8Aux` decodes a byte list into a list of units, where `some c` is a
decoded character and `none` marks one maximal invalid subpart.  The fuel
argument (instantiated with the length of the list) makes the recursion
structural; every step consumes at least one byte, so the fuel never runs
out on the initial call. -/

/-- Whether a byte is a UTF-8 continuation byte (0x80–0xBF). -/
def isCont (b : Nat) : Bool := decide (0x80 ≤ b ∧ b < 0xC0)

/-- Fuel-indexed UTF-8 decoder producing decoded characters (`some`) and
error marks (`none`), following the maximal-subpart convention used by
Python's codec error handlers. -/
def utf8Aux : Nat → List Nat → List (Option Char)
  | 0, _ => []
  | _ + 1, [] => []
  | f + 1, b :: rest =>
    if b < 0x80 then
      some (Char.ofNat b) :: utf8Aux f rest
    else if 0xC2 ≤ b ∧ b ≤ 0xDF then
      match rest with
      | [] => [none]
      | b2 :: rest2 =>
        if isCont b2 then
          some (Char.ofNat ((b - 0xC0) * 0x40 + (b2 - 0x80))) :: utf8Aux f rest2
        else none :: utf8Aux f rest
    else if 0xE0 ≤ b ∧ b ≤ 0xEF then
      match rest with
      | [] => [none]
      | b2 :: rest2 =>
        if (b = 0xE0 ∧ 0xA0 ≤ b2 ∧ b2 ≤ 0xBF) ∨
           (b = 0xED ∧ 0x80 ≤ b2 ∧ b2 ≤ 0x9F) ∨
           (b ≠ 0xE0 ∧ b ≠ 0xED ∧ isCont b2) then
          match rest2 with
          | [] => [none]
          | b3 :: rest3 =>
            if isCont b3 then
              some (Char.ofNat ((b - 0xE0) * 0x1000 + (b2 - 0x80) * 0x40 + (b3 - 0x80)))
                :: utf8Aux f rest3
            else none :: utf8Aux f (b3 :: rest3)
        else none :: utf8Aux f rest
    else if 0xF0 ≤ b ∧ b ≤ 0xF4 then
      match rest with
      | [] => [none]
      | b2 :: rest2 =>
        if (b = 0xF0 ∧ 0x90 ≤ b2 ∧ b2 ≤ 0xBF) ∨
           (0xF1 ≤ b ∧ b ≤ 0xF3 ∧ isCont b2) ∨
           (b = 0xF4 ∧ 0x80 ≤ b2 ∧ b2 ≤ 0x8F) then
          match rest2 with
          | [] => [none]
          | b3 :: rest3 =>
            if isCont b3 then
              match rest3 with
              | [] => [none]
              | b4 :: rest4 =>
                if isCont b4 then
                  some (Char.ofNat ((b - 0xF0) * 0x40000 + (b2 - 0x80) * 0x1000 +
                    (b3 - 0x80) * 0x40 + (b4 - 0x80))) :: utf8Aux f rest4
                else none :: utf8Aux f (b4 :: rest4)
            else none :: utf8Aux f (b3 :: rest3)
        else none :: utf8Aux f rest
    else none :: utf8Aux f rest

/-- Decode a byte list into UTF-8 units (`some` character / `none` error). -/
def utf8Units (bs : Bytes) : List (Option Char) := utf8Aux bs.length bs

/-- Model of Python `bs.decode(errors='ignore')` (source line 144): invalid
byte sequences are dropped; decoding always yields a string. -/
def pyDecodeIgnore (bs : Bytes) : String := ⟨(utf8Units bs).filterMap id⟩

/-- Modelled from the spec: decoding "with invalid byte sequences replaced",
i.e. Python `bs.decode(errors='replace')`; every invalid subpart becomes
U+FFFD.  The source itself uses `errors='ignore'` — this definition exists
only to compare the spec's wording with the source's behaviour. -/
def pyDecodeReplace (bs : Bytes) : String :=
  ⟨(utf8Units bs).map (fun o => o.getD (Char.ofNat 0xFFFD))⟩

/-- Model of Python `bs.decode()` with strict errors (source line 144,
`uid.decode()`): `none` models an uncaught `UnicodeDecodeError`. -/
def pyDecodeStrict (bs : Bytes) : Option String :=
  if (utf8Units bs).all Option.isSome then some ⟨(utf8Units bs).filterMap id⟩ else none

/-! ### Argument parsing (source lines 83–114) -/

/-- Whether a character is an ASCII decimal digit. -/
def isDigitCh (c : Char) : Bool := decide ('0' ≤ c ∧ c ≤ '9')

/-- Whether a character counts as strippable whitespace for `int()`. -/
def isSpaceCh (c : Char) : Bool := decide (c = ' ' ∨ c = '\t' ∨ c = '\n' ∨ c = '\r')

/-- Value of a nonempty all-digit character list, `none` otherwise. -/
def digitsToNat (cs : List Char) : Option Nat :=
  if cs ≠ [] ∧ cs.all isDigitCh then
    some (cs.foldl (fun a c => a * 10 + (c.toNat - 48)) 0)
  else none

/-- Model of the Python builtin `int(value)` on a string argument (ASCII
form): surrounding whitespace is stripped, an optional sign is allowed,
and the rest must be decimal digits; `none` models `ValueError`. -/
def pyToInt (s : String) : Option Int :=
  let cs := ((s.data.dropWhile isSpaceCh).reverse.dropWhile isSpaceCh).reverse
  match cs with
  | '+' :: ds => (digitsToNat ds).map Int.ofNat
  | '-' :: ds => (digitsToNat ds).map (fun n => -(n : Int))
  | ds => (digitsToNat ds).map Int.ofNat

/-- Source `is_valid_port` (lines 83–88): `int(value)` must succeed and the
result must lie in the range 1–65535. -/
def is_valid_port (value : String) : Bool :=
  match pyToInt value with
  | some port => decide (1 ≤ port ∧ port ≤ 65535)
  | none => false

/-- The parsed invocation arguments (the tuple returned by the source's
`parse_arguments`). -/
structure Args where
  imap_host : String
  username : String
  password : String
  mailbox : String
  imap_port : Int
deriving DecidableEq

/-- Result of `parse_arguments`: the usage path (`len(sys.argv) < 4`,
prints usage and exits 1), the invalid-port path for the fifth argument
(prints an error and exits 1), or the parsed arguments. -/
inductive ParseResult where
  | usage
  | badPort
  | ok (a : Args)
deriving DecidableEq

/-- Source `parse_arguments` (lines 90–114).  `argv` includes the program
name at index 0, as `sys.argv` does. -/
def parse_arguments (argv : List String) : ParseResult :=
  if argv.length < 4 then .usage
  else
    let imap_host := argv.getD 1 ""
    let username := argv.getD 2 ""
    let password := argv.getD 3 ""
    let mp : String × Int :=
      if 4 < argv.length then
        if is_valid_port (argv.getD 4 "") then ("Inbox", (pyToInt (argv.getD 4 "")).getD 0)
        else (argv.getD 4 "", 993)
      else ("Inbox", 993)
    if 5 < argv.length then
      if is_valid_port (argv.getD 5 "") then
        .ok ⟨imap_host, username, password, mp.1, (pyToInt (argv.getD 5 "")).getD 0⟩
      else .badPort
    else .ok ⟨imap_host, username, password, mp.1, mp.2⟩

/-! ### The store (a Python dict with `PyVal` keys and string values) -/

/-- The in-memory store: an association list mirroring a Python dict
(insertion order, unique keys). -/
abbrev Store := List (PyVal × String)

/-- The keys of the store, as `store.keys()`. -/
def storeKeys (st : Store) : List PyVal := st.map Prod.fst

/-- Python dict assignment `st[k] = v`: replace in place when the key is
present, append otherwise. -/
def storeInsert (st : Store) (k : PyVal) (v : String) : Store :=
  if (storeKeys st).contains k then
    st.map (fun p => if p.1 = k then (k, v) else p)
  else st ++ [(k, v)]

/-- Source `load_store` (lines 69–77): a present JSON file (an object with
string keys) becomes a dict with `str` keys; an absent file becomes the
empty dict.  The second component is the log line emitted. -/
def load_storePure (file : Option (List (String × String))) : Store :=
  match file with
  | some l => l.map (fun p => (PyVal.vstr p.1, p.2))
  | none => []

/-- Insert a pair into a list sorted by first component (string order). -/
def insSorted (p : String × String) : List (String × String) → List (String × String)
  | [] => [p]
  | q :: rest => if p.1 < q.1 then p :: q :: rest else q :: insSorted p rest

/-- Sort an association list by key, modelling `sort_keys=True`. -/
def sortByKey : List (String × String) → List (String × String)
  | [] => []
  | p :: rest => insSorted p (sortByKey rest)

/-- Source `save_store` (lines 79–81): `json.dump(store, file,
sort_keys=True)`.  JSON objects require string keys; a `bytes` key would
raise `TypeError`, modelled as `none`. -/
def save_store (st : Store) : Option (List (String × String)) :=
  if st.all (fun p => p.1.isStr) then
    some (sortByKey (st.map (fun p => (p.1.asStr, p.2))))
  else none

/-! ### The retry-fetch state machine (source `fetch_email_header`, lines 46–67)

The IMAP session is abstracted as an oracle mapping the attempt index
(the value of `retry_count` at that iteration) to the attempt's outcome.
Logging and sleeping become an event trace. -/

/-- One log or sleep event, one constructor per emission site in the
source.  The constructor name records the log level. -/
inductive Ev where
  | infoLoaded (n : Nat)        -- 'Loaded n emails from existing store'
  | infoFresh                   -- 'No existing store found. Starting fresh.'
  | infoLoginAttempt            -- 'Attempting IMAP login'
  | infoLoginOk                 -- 'Successfully logged in'
  | errAuth                     -- 'Failed to log in. Please check user credentials.'
  | errHost                     -- 'Failed to log in. Please check host name.'
  | infoFetching (mailbox : String)      -- 'Fetching unread emails from mailbox ...'
  | infoCounts (found new : Nat)         -- '... unread emails found, ... new to fetch.'
  | infoRetry (rc tl : Nat)     -- 'Retrying (rc/tl)...'
  | sleep (w : Nat)             -- time.sleep(timeout_wait)
  | infoFetched (uid : Bytes)   -- 'Successfully fetched header for UID ...'
  | warnProblem (uid : Bytes)   -- 'Problem fetching header for UID ... Response: ...'
  | errAbort (uid : Bytes)      -- 'Connection closed by server while fetching UID ...'
  | errUnexpected (uid : Bytes) -- 'Unexpected error while fetching UID ...'
  | errTerminal (uid : Bytes) (tl : Nat) -- 'Failed to fetch UID ... after tl retries.'
  | infoCompleted (n : Nat)     -- 'Completed fetching. Fetched n emails ...'
deriving DecidableEq

/-- Outcome of one `mail.uid('FETCH', ...)` call: a (status, response)
reply, a raised `imaplib.IMAP4.abort`, or another raised exception.  In a
reply with status `'OK'`, `payload = some p` means `response[0][1]`
evaluates to the bytes `p`; `payload = none` means the response is
malformed and evaluating `response[0][1]` raises (caught by the generic
`except Exception`). -/
inductive AttemptOutcome where
  | reply (status : String) (payload : Option Bytes)
  | abortExn
  | otherExn
deriving DecidableEq

/-- The payload returned by the `return response[0][1]` path, when the
attempt takes it: status `'OK'` and a well-formed response. -/
def isSuccess : AttemptOutcome → Option Bytes
  | .reply s (some p) => if s = "OK" then some p else none
  | _ => none

/-- The log events of one non-returning attempt: an error status logs a
warning; an `'OK'` status with a malformed response logs the success line
and then the generic error (the success line is printed before
`response[0][1]` is evaluated); a raised abort or other exception logs the
corresponding error. -/
def attemptEv (uid : Bytes) : AttemptOutcome → List Ev
  | .reply s pl =>
    if s = "OK" then
      match pl with
      | some _ => [.infoFetched uid]
      | none => [.infoFetched uid, .errUnexpected uid]
    else [.warnProblem uid]
  | .abortExn => [.errAbort uid]
  | .otherExn => [.errUnexpected uid]

/-- Observable result of `fetch_email_header`: the returned value, how
many times `mail.uid` was called, how many times `time.sleep` was called,
and the full event trace. -/
structure FetchRes where
  result : Option Bytes
  attempts : Nat
  sleeps : Nat
  events : List Ev
deriving DecidableEq

/-- The retry loop body: `fuel` is the number of remaining iterations
allowed by the `while retry_count <= timeout_limit` condition
(`timeout_limit + 1 - retry_count`), `rc` the current `retry_count`.
Fuel 0 is loop exit: log the terminal failure, return `None`. -/
def fetchAux (orc : Nat → AttemptOutcome) (uid : Bytes) (tl tw : Nat) :
    Nat → Nat → FetchRes
  | 0, _ => ⟨none, 0, 0, [.errTerminal uid tl]⟩
  | fuel + 1, rc =>
    let pre : List Ev := if 0 < rc then [.infoRetry rc tl, .sleep tw] else []
    let ps : Nat := if 0 < rc then 1 else 0
    match isSuccess (orc rc) with
    | some p => ⟨some p, 1, ps, pre ++ [.infoFetched uid]⟩
    | none =>
      let r := fetchAux orc uid tl tw fuel (rc + 1)
      ⟨r.result, r.attempts + 1, r.sleeps + ps, pre ++ attemptEv uid (orc rc) ++ r.events⟩

/-- Source `fetch_email_header` (lines 46–67), with the session replaced
by the per-attempt oracle `orc` and the logger by the event trace. -/
def fetch_email_header (orc : Nat → AttemptOutcome) (uid : Bytes)
    (retry_count timeout_limit timeout_wait : Nat) : FetchRes :=
  fetchAux orc uid timeout_limit timeout_wait (timeout_limit + 1 - retry_count) retry_count

/-- The event trace of the first `k` attempts when all of them fail,
starting from `retry_count = rc`. -/
def failTrace (uid : Bytes) (orc : Nat → AttemptOutcome) (tl tw : Nat) :
    Nat → Nat → List Ev
  | _, 0 => []
  | rc, k + 1 =>
    (if 0 < rc then [.infoRetry rc tl, .sleep tw] else []) ++
      attemptEv uid (orc rc) ++ failTrace uid orc tl tw (rc + 1) k

/-! ### The per-run fetch loop and `main` (source lines 116–149) -/

/-- Observable result of the `for uid in new_uids` loop: the final store,
the concatenated fetch event traces, the UIDs passed to
`fetch_email_header` (in iteration order), and whether the loop died with
an uncaught `UnicodeDecodeError` from `uid.decode()`. -/
structure LoopOut where
  store : Store
  events : List Ev
  fetched : List Bytes
  crashed : Bool
deriving DecidableEq

/-- The loop body of `main` (lines 141–144): fetch each UID; when the
returned header is truthy (neither `None` nor empty), record
`store[uid.decode()] = header.decode(errors='ignore')`. -/
def runFetchLoop (orc : Bytes → Nat → AttemptOutcome) (tl tw : Nat) :
    List Bytes → Store → LoopOut
  | [], st => ⟨st, [], [], false⟩
  | u :: rest, st =>
    let fr := fetch_email_header (orc u) u 0 tl tw
    match fr.result with
    | some h =>
      if h = [] then
        let r := runFetchLoop orc tl tw rest st
        ⟨r.store, fr.events ++ r.events, u :: r.fetched, r.crashed⟩
      else
        match pyDecodeStrict u with
        | some s =>
          let r := runFetchLoop orc tl tw rest (storeInsert st (.vstr s) (pyDecodeIgnore h))
          ⟨r.store, fr.events ++ r.events, u :: r.fetched, r.crashed⟩
        | none => ⟨st, fr.events, [u], true⟩
    | none =>
      let r := runFetchLoop orc tl tw rest st
      ⟨r.store, fr.events ++ r.events, u :: r.fetched, r.crashed⟩

/-- Behaviour of the connection setup (source lines 26–44): the
constructor, STARTTLS, login and mailbox select all succeed; or the server
rejects the login (`imaplib.IMAP4.error`); or name resolution fails
(`socket.gaierror`). -/
inductive ConnBehavior where
  | connOk
  | authReject
  | hostFail
deriving DecidableEq

/-- Observable result of one whole run of `main`: the process exit code,
the store file contents written by `save_store` (`none` when the file was
never written), the log, the UIDs passed to the retry fetch, and whether
the run died with an uncaught exception. -/
structure MainOut where
  exitCode : Nat
  saved : Option (List (String × String))
  log : List Ev
  fetched : List Bytes
  crashed : Bool
deriving DecidableEq

/-- Source `main` (lines 116–149).  `file` is the store file contents (or
`none` when absent), `serverData` the UID list produced by
`data[0].split()` from the `SEARCH` reply, `orc` the per-UID per-attempt
fetch oracle.  The connection setup logs and calls `sys.exit(1)` on the
two fatal classes before anything is written; on the success path the
server UID set is diffed against the store keys — the UIDs are `bytes`
while the loaded keys are `str`, exactly as in the source — and the new
UIDs are fetched and saved. -/
def runMain (argv : List String) (conn : ConnBehavior)
    (file : Option (List (String × String))) (serverData : List Bytes)
    (orc : Bytes → Nat → AttemptOutcome) : MainOut :=
  match parse_arguments argv with
  | .usage => ⟨1, none, [], [], false⟩
  | .badPort => ⟨1, none, [], [], false⟩
  | .ok a =>
    let timeout_wait := 30
    let timeout_limit := 3
    let store := load_storePure file
    let loadEv := match file with
      | some l => Ev.infoLoaded l.length
      | none => Ev.infoFresh
    match conn with
    | .authReject => ⟨1, none, [loadEv, .infoLoginAttempt, .errAuth], [], false⟩
    | .hostFail => ⟨1, none, [loadEv, .infoLoginAttempt, .errHost], [], false⟩
    | .connOk =>
      let unread_uids := serverData.dedup
      let new_uids := unread_uids.filter (fun u => !(storeKeys store).contains (.vbytes u))
      let r := runFetchLoop orc timeout_limit timeout_wait new_uids store
      let preEvs := [loadEv, .infoLoginAttempt, .infoLoginOk, .infoFetching a.mailbox,
        .infoCounts unread_uids.length new_uids.length]
      if r.crashed then ⟨1, none, preEvs ++ r.events, r.fetched, true⟩
      else
        match save_store r.store with
        | some out => ⟨0, some out, preEvs ++ r.events ++ [.infoCompleted new_uids.length],
            r.fetched, false⟩
        | none => ⟨1, none, preEvs ++ r.events, r.fetched, true⟩

/-! ### Helper lemmas -/
lemma storeKeys_replace (st : Store) (k : PyVal) (v : String) :
    storeKeys (st.map (fun p => if p.1 = k then (k, v) else p)) = storeKeys st := by
  induction st with
  | nil => rfl
  | cons p rest ih =>
    by_cases h : p.1 = k
    · simp only [storeKeys, List.map_cons] at ih ⊢
      simp [h, ih]
    · simp only [storeKeys, List.map_cons] at ih ⊢
      simp [h, ih]

lemma mem_storeKeys_insert {st : Store} {k k' : PyVal} {v : String} :
    k' ∈ storeKeys (storeInsert st k v) ↔ k' ∈ storeKeys st ∨ k' = k := by
  unfold storeInsert
  split
  · next h =>
    rw [storeKeys_replace]
    constructor
    · exact Or.inl
    · rintro (h' | rfl)
      · exact h'
      · simpa [List.elem_iff] using h
  · simp [storeKeys]

lemma keysMono_runFetchLoop (orc : Bytes → Nat → AttemptOutcome) (tl tw : Nat)
    (uids : List Bytes) (st : Store) {k : PyVal} (h : k ∈ storeKeys st) :
    k ∈ storeKeys (runFetchLoop orc tl tw uids st).store := by
  induction uids generalizing st with
  | nil => exact h
  | cons u rest ih =>
    simp only [runFetchLoop]
    cases hr : (fetch_email_header (orc u) u 0 tl tw).result with
    | none => exact ih st h
    | some hd =>
      by_cases he : hd = []
      · simp only [he, if_pos rfl]
        exact ih st h
      · simp only [if_neg he]
        cases hs : pyDecodeStrict u with
        | none => exact h
        | some s => exact ih _ (mem_storeKeys_insert.mpr (Or.inl h))

lemma fetchAux_allFail (orc : Nat → AttemptOutcome) (uid : Bytes) (tl tw : Nat)
    (h : ∀ i, isSuccess (orc i) = none) :
    ∀ fuel rc, (fetchAux orc uid tl tw fuel rc).result = none ∧
      (fetchAux orc uid tl tw fuel rc).attempts = fuel ∧
      Ev.errTerminal uid tl ∈ (fetchAux orc uid tl tw fuel rc).events := by
  intro fuel
  induction fuel with
  | zero => intro rc; refine ⟨rfl, rfl, ?_⟩; simp [fetchAux]
  | succ f ih =>
    intro rc
    have ⟨ih1, ih2, ih3⟩ := ih (rc + 1)
    simp only [fetchAux, h rc]
    exact ⟨ih1, by rw [ih2], by simp [ih3]⟩

lemma runFetchLoop_fetched (orc : Bytes → Nat → AttemptOutcome) (tl tw : Nat)
    (uids : List Bytes) (st : Store)
    (hdec : ∀ u ∈ uids, (pyDecodeStrict u).isSome) :
    (runFetchLoop orc tl tw uids st).fetched = uids ∧
      (runFetchLoop orc tl tw uids st).crashed = false := by
  induction uids generalizing st with
  | nil => exact ⟨rfl, rfl⟩
  | cons u rest ih =>
    have hu : (pyDecodeStrict u).isSome := hdec u (by simp)
    have hrest : ∀ v ∈ rest, (pyDecodeStrict v).isSome := fun v hv => hdec v (by simp [hv])
    simp only [runFetchLoop]
    cases hr : (fetch_email_header (orc u) u 0 tl tw).result with
    | none =>
      have ⟨i1, i2⟩ := ih st hrest
      simp [i1, i2]
    | some hd =>
      by_cases he : hd = []
      · have ⟨i1, i2⟩ := ih st hrest
        simp [he, i1, i2]
      · simp only [if_neg he]
        cases hs : pyDecodeStrict u with
        | none => simp [hs] at hu
        | some s =>
          have ⟨i1, i2⟩ := ih (storeInsert st (.vstr s) (pyDecodeIgnore hd)) hrest
          simp [i1, i2]

lemma allStr_insert {st : Store} (h : ∀ p ∈ st, p.1.isStr = true) (s : String) (v : String) :
    ∀ p ∈ storeInsert st (.vstr s) v, p.1.isStr = true := by
  unfold storeInsert
  split
  · intro p hp
    obtain ⟨q, hq, rfl⟩ := List.mem_map.mp hp
    by_cases hqk : q.1 = PyVal.vstr s
    · simp [hqk, PyVal.isStr]
    · simpa [hqk] using h q hq
  · intro p hp
    rcases List.mem_append.mp hp with h1 | h1
    · exact h p h1
    · simp at h1; simp [h1, PyVal.isStr]

lemma allStr_runFetchLoop (orc : Bytes → Nat → AttemptOutcome) (tl tw : Nat)
    (uids : List Bytes) (st : Store) (h : ∀ p ∈ st, p.1.isStr = true) :
    ∀ p ∈ (runFetchLoop orc tl tw uids st).store, p.1.isStr = true := by
  induction uids generalizing st with
  | nil => exact h
  | cons u rest ih =>
    simp only [runFetchLoop]
    cases hr : (fetch_email_header (orc u) u 0 tl tw).result with
    | none => exact ih st h
    | some hd =>
      by_cases he : hd = []
      · simp only [he, if_pos rfl]; exact ih st h
      · simp only [if_neg he]
        cases hs : pyDecodeStrict u with
        | none => exact h
        | some s => exact ih _ (allStr_insert h s _)

lemma allStr_load (file : Option (List (String × String))) :
    ∀ p ∈ load_storePure file, p.1.isStr = true := by
  cases file with
  | none => intro p hp; simp [load_storePure] at hp
  | some l =>
    intro p hp
    simp only [load_storePure, List.mem_map] at hp
    obtain ⟨q, _, rfl⟩ := hp
    rfl

lemma save_store_isSome {st : Store} (h : ∀ p ∈ st, p.1.isStr = true) :
    save_store st = some (sortByKey (st.map (fun p => (p.1.asStr, p.2)))) := by
  unfold save_store
  rw [if_pos (List.all_eq_true.mpr h)]

lemma mem_insSorted (p q : String × String) (l : List (String × String)) :
    p ∈ insSorted q l ↔ p = q ∨ p ∈ l := by
  induction l with
  | nil => simp [insSorted]
  | cons r rest ih =>
    unfold insSorted
    split
    · simp
    · simp [ih]; tauto

lemma mem_sortByKey (p : String × String) (l : List (String × String)) :
    p ∈ sortByKey l ↔ p ∈ l := by
  induction l with
  | nil => simp [sortByKey]
  | cons q rest ih => simp [sortByKey, mem_insSorted, ih]

lemma save_store_keys {st : Store} {out : List (String × String)}
    (hall : ∀ p ∈ st, p.1.isStr = true)
    (h : save_store st = some out) (s : String) :
    (∃ q ∈ out, q.1 = s) ↔ PyVal.vstr s ∈ storeKeys st := by
  unfold save_store at h
  rw [if_pos (List.all_eq_true.mpr hall)] at h
  obtain rfl : sortByKey (st.map (fun p => (p.1.asStr, p.2))) = out := by
    injection h
  constructor
  · rintro ⟨q, hq, rfl⟩
    rw [mem_sortByKey] at hq
    obtain ⟨p, hp, rfl⟩ := List.mem_map.mp hq
    have := hall p hp
    cases hk : p.1 with
    | vstr t => simp only [storeKeys]
                exact List.mem_map.mpr ⟨p, hp, by simp [hk, PyVal.asStr]⟩
    | vbytes b => simp [hk, PyVal.isStr] at this
  · intro hs
    obtain ⟨p, hp, hk⟩ := List.mem_map.mp hs
    refine ⟨(p.1.asStr, p.2), ?_, by simp [hk, PyVal.asStr]⟩
    rw [mem_sortByKey]
    exact List.mem_map.mpr ⟨p, hp, rfl⟩

lemma vbytes_not_mem_load (file : Option (List (String × String))) (u : Bytes) :
    ((storeKeys (load_storePure file)).contains (PyVal.vbytes u)) = false := by
  rw [Bool.eq_false_iff]
  intro hc
  have hm := List.elem_iff.mp hc
  obtain ⟨p, hp, hk⟩ := List.mem_map.mp hm
  have := allStr_load file p hp
  rw [hk] at this
  simp [PyVal.isStr] at this

lemma notInserted_runFetchLoop (orc : Bytes → Nat → AttemptOutcome) (tl tw : Nat)
    (uids : List Bytes) (st : Store) (s : String)
    (hnotin : PyVal.vstr s ∉ storeKeys st)
    (hnone : ∀ u ∈ uids, pyDecodeStrict u = some s →
      (fetch_email_header (orc u) u 0 tl tw).result = none ∨
      (fetch_email_header (orc u) u 0 tl tw).result = some []) :
    PyVal.vstr s ∉ storeKeys (runFetchLoop orc tl tw uids st).store := by
  induction uids generalizing st with
  | nil => exact hnotin
  | cons u rest ih =>
    have hrest : ∀ v ∈ rest, pyDecodeStrict v = some s →
        (fetch_email_header (orc v) v 0 tl tw).result = none ∨
        (fetch_email_header (orc v) v 0 tl tw).result = some [] :=
      fun v hv => hnone v (by simp [hv])
    simp only [runFetchLoop]
    cases hr : (fetch_email_header (orc u) u 0 tl tw).result with
    | none => exact ih st hnotin hrest
    | some hd =>
      by_cases he : hd = []
      · simp only [he, if_pos rfl]
        exact ih st hnotin hrest
      · simp only [if_neg he]
        cases hs : pyDecodeStrict u with
        | none => exact hnotin
        | some t =>
          by_cases hts : t = s
          · subst hts
            rcases hnone u (by simp) hs with h1 | h1 <;> rw [hr] at h1 <;>
              simp [he] at h1
          · refine ih _ ?_ hrest
            intro hmem
            rcases mem_storeKeys_insert.mp hmem with h1 | h1
            · exact hnotin h1
            · exact hts (by injection h1 with h2; exact h2.symm)

lemma events_mem_runFetchLoop (orc : Bytes → Nat → AttemptOutcome) (tl tw : Nat)
    (uids : List Bytes) (st : Store) (u : Bytes) (e : Ev)
    (hdec : ∀ v ∈ uids, (pyDecodeStrict v).isSome)
    (hu : u ∈ uids) (he : e ∈ (fetch_email_header (orc u) u 0 tl tw).events) :
    e ∈ (runFetchLoop orc tl tw uids st).events := by
  induction uids generalizing st with
  | nil => simp at hu
  | cons v rest ih =>
    have hv : (pyDecodeStrict v).isSome := hdec v (by simp)
    have hrest : ∀ w ∈ rest, (pyDecodeStrict w).isSome := fun w hw => hdec w (by simp [hw])
    rcases List.mem_cons.mp hu with rfl | hu'
    · simp only [runFetchLoop]
      cases hr : (fetch_email_header (orc u) u 0 tl tw).result with
      | none => simpa using Or.inl he
      | some hd =>
        by_cases hemp : hd = []
        · simp only [hemp, if_pos rfl]; simpa using Or.inl he
        · simp only [if_neg hemp]
          cases hs : pyDecodeStrict u with
          | none => simp [hs] at hv
          | some t => simpa using Or.inl he
    · simp only [runFetchLoop]
      cases hr : (fetch_email_header (orc v) v 0 tl tw).result with
      | none => simpa using Or.inr (ih st hrest hu')
      | some hd =>
        by_cases hemp : hd = []
        · simp only [hemp, if_pos rfl]; simpa using Or.inr (ih st hrest hu')
        · simp only [if_neg hemp]
          cases hs : pyDecodeStrict v with
          | none => simp [hs] at hv
          | some t => simpa using Or.inr (ih _ hrest hu')

lemma isSuccess_eq_some {o : AttemptOutcome} {p : Bytes} (h : isSuccess o = some p) :
    o = .reply "OK" (some p) := by
  cases o with
  | reply s pl =>
    cases pl with
    | some q =>
      by_cases hs : s = "OK"
      · subst hs
        simp [isSuccess] at h
        simp [h]
      · simp [isSuccess, hs] at h
    | none => simp [isSuccess] at h
  | abortExn => simp [isSuccess] at h
  | otherExn => simp [isSuccess] at h

lemma fetchAux_succAt (orc : Nat → AttemptOutcome) (uid : Bytes) (tl tw : Nat) (p : Bytes) :
    ∀ k rc fuel, k < fuel →
      (∀ i, i < k → isSuccess (orc (rc + i)) = none) →
      isSuccess (orc (rc + k)) = some p →
      fetchAux orc uid tl tw fuel rc =
        ⟨some p, k + 1, k + (if 0 < rc then 1 else 0),
          failTrace uid orc tl tw rc k ++
            (if 0 < rc + k then [Ev.infoRetry (rc + k) tl, Ev.sleep tw] else []) ++
            [Ev.infoFetched uid]⟩ := by
  intro k
  induction k with
  | zero =>
    intro rc fuel hf hfail hsucc
    obtain ⟨f, rfl⟩ : ∃ f, fuel = f + 1 := ⟨fuel - 1, by omega⟩
    rw [Nat.add_zero] at hsucc
    simp [fetchAux, hsucc, failTrace]
  | succ k ih =>
    intro rc fuel hf hfail hsucc
    obtain ⟨f, rfl⟩ : ∃ f, fuel = f + 1 := ⟨fuel - 1, by omega⟩
    have h0 : isSuccess (orc rc) = none := by simpa using hfail 0 (Nat.succ_pos k)
    have hr := ih (rc + 1) f (by omega)
      (fun i hi => by
        have := hfail (i + 1) (by omega)
        have harr : rc + (i + 1) = rc + 1 + i := by omega
        rwa [harr] at this)
      (by
        have harr : rc + (k + 1) = rc + 1 + k := by omega
        rwa [harr] at hsucc)
    have hidx : rc + 1 + k = rc + (k + 1) := by omega
    simp only [fetchAux, h0, hr, failTrace, hidx]
    simp [List.append_assoc]

/-! ### Claim theorems -/

/-- C1 (code bug): with a persisted store whose keys are "a" and "b" and a
server search returning the byte UIDs a, b, c, d, the run passes all four
byte UIDs to the retry fetch, not only c and d as the claim demands.  The
set difference of source line 135 subtracts the *decoded string* store
keys from the *undecoded byte* server UIDs, and a `bytes` never equals a
`str`, so nothing is removed. -/
theorem c1_set_difference_bug :
    (runMain ["fetch.py", "imap.example.org", "alice", "pw"] .connOk
        (some [("a", "x"), ("b", "y")]) [[97], [98], [99], [100]]
        (fun _ _ => .reply "OK" (some [72]))).fetched = [[97], [98], [99], [100]] ∧
    [[97], [98], [99], [100]] ≠ ([[99], [100]] : List Bytes) := by
  exact ⟨by decide, by decide⟩

/-- C2 (code bug): after a first run records UID "1", a second run with the
same server state passes the byte UID 1 to the retry fetch again — the
claim that no UID is re-fetched fails (the final store does end up
identical, but only because the unchanged header overwrites the entry with
the same value). -/
theorem c2_idempotence_bug :
    (runMain ["fetch.py", "imap.example.org", "alice", "pw"] .connOk
        ((runMain ["fetch.py", "imap.example.org", "alice", "pw"] .connOk none [[49]]
          (fun _ _ => .reply "OK" (some [72]))).saved) [[49]]
        (fun _ _ => .reply "OK" (some [72]))).fetched = [[49]] ∧
    (runMain ["fetch.py", "imap.example.org", "alice", "pw"] .connOk none [[49]]
        (fun _ _ => .reply "OK" (some [72]))).saved = some [("1", "H")] ∧
    ([[49]] : List Bytes) ≠ [] := by
  exact ⟨by decide, by decide, by decide⟩

/-- C3 (code bug): a run over a store that already maps "1" to "old", with
the server returning byte UID 1 and a fetch yielding a different header,
overwrites the existing key's value — contradicting the claim that an
existing key's value is never overwritten with a different value. -/
theorem c3_overwrite_bug :
    (runMain ["fetch.py", "imap.example.org", "alice", "pw"] .connOk
        (some [("1", "old")]) [[49]]
        (fun _ _ => .reply "OK" (some [78]))).saved = some [("1", "N")] ∧
    ("N" : String) ≠ "old" := by
  exact ⟨by decide, by decide⟩

/-- C6 (counterexample): an attempt whose status is OK but whose payload is
the *empty* byte string is returned immediately on the first attempt — it
is not logged as a warning and retrying does not continue, contrary to the
claim. -/
theorem c6_empty_payload_counterexample :
    (fetch_email_header (fun _ => .reply "OK" (some [])) [49] 0 3 30).result = some [] ∧
    (fetch_email_header (fun _ => .reply "OK" (some [])) [49] 0 3 30).attempts = 1 ∧
    Ev.warnProblem [49] ∉
      (fetch_email_header (fun _ => .reply "OK" (some [])) [49] 0 3 30).events := by
  exact ⟨by decide, by decide, by decide⟩

/-- C8 (counterexample): a fetched header consisting of the bytes 0x41 0xFF
is stored as "A" — the invalid byte is dropped (`errors='ignore'`), not
replaced as the claim's "invalid byte sequences are replaced" would give
("A" followed by U+FFFD). -/
theorem c8_replace_counterexample :
    (runMain ["fetch.py", "imap.example.org", "alice", "pw"] .connOk none [[49]]
        (fun _ _ => .reply "OK" (some [65, 255]))).saved = some [("1", "A")] ∧
    pyDecodeReplace [65, 255] = "A\uFFFD" ∧
    ("A" : String) ≠ "A\uFFFD" := by
  exact ⟨by decide, by decide, by decide⟩

/-- C9: the fourth positional argument is disambiguated by value — "993"
is parsed as the port with the mailbox defaulting to "Inbox", "Archive" is
taken as the mailbox with the port defaulting to 993 — and a value is
recognized as a port exactly when it parses as an integer in 1–65535. -/
theorem c9_port_mailbox_disambiguation :
    (∀ host user pw : String,
      parse_arguments ["fetch.py", host, user, pw, "993"] =
        .ok ⟨host, user, pw, "Inbox", 993⟩) ∧
    (∀ host user pw : String,
      parse_arguments ["fetch.py", host, user, pw, "Archive"] =
        .ok ⟨host, user, pw, "Archive", 993⟩) ∧
    (∀ v : String, is_valid_port v = true ↔
      ∃ n : Int, pyToInt v = some n ∧ 1 ≤ n ∧ n ≤ 65535) := by
  refine ⟨?_, ?_, ?_⟩
  · intro host user pw
    have h1 : is_valid_port "993" = true := by decide
    have h2 : (pyToInt "993").getD 0 = 993 := by decide
    simp [parse_arguments, List.getD, h1, h2]
  · intro host user pw
    have h1 : is_valid_port "Archive" = false := by decide
    simp [parse_arguments, List.getD, h1]
  · intro v
    unfold is_valid_port
    cases h : pyToInt v with
    | none => simp
    | some n => simp

/-- C10: a numeric fourth argument outside 1–65535 is silently taken as
the mailbox name with the port keeping its default 993; within
`parse_arguments`, once at least four arguments are present, the only
error path is an invalid fifth argument. -/
theorem c10_out_of_range_port_as_mailbox (host user pw v : String) (n : Int)
    (hv : pyToInt v = some n) (hout : n < 1 ∨ 65535 < n) :
    parse_arguments ["fetch.py", host, user, pw, v] = .ok ⟨host, user, pw, v, 993⟩ ∧
    (∀ w : String, is_valid_port w = false →
      parse_arguments ["fetch.py", host, user, pw, v, w] = .badPort) ∧
    (∀ argv : List String, 4 ≤ argv.length →
      parse_arguments argv ≠ .usage ∧
      (parse_arguments argv = .badPort ↔
        6 ≤ argv.length ∧ is_valid_port (argv.getD 5 "") = false)) := by
  have hport : is_valid_port v = false := by
    unfold is_valid_port
    rw [hv]
    simp only [decide_eq_false_iff_not]
    omega
  refine ⟨?_, ?_, ?_⟩
  · simp [parse_arguments, List.getD, hport]
  · intro w hw
    simp [parse_arguments, List.getD, hport, hw]
  · intro argv hlen
    unfold parse_arguments
    rw [if_neg (by omega)]
    by_cases h5 : 5 < argv.length
    · rw [if_pos h5]
      by_cases hv5 : is_valid_port (argv.getD 5 "")
      · rw [if_pos hv5]
        refine ⟨(by intro hc; cases hc), ?_⟩
        constructor
        · intro hc; cases hc
        · rintro ⟨-, hfalse⟩
          rw [hv5] at hfalse
          cases hfalse
      · rw [if_neg hv5]
        refine ⟨(by intro hc; cases hc), ?_⟩
        simp only [eq_self_iff_true, true_iff]
        exact ⟨by omega, by simpa using hv5⟩
    · rw [if_neg h5]
      refine ⟨(by intro hc; cases hc), ?_⟩
      constructor
      · intro hc; cases hc
      · rintro ⟨h6, _⟩; omega

/-- C7: when the server rejects authentication or the hostname cannot be
resolved, the run exits with status 1 after logging the corresponding
error message (and the two messages are distinct), and the store file is
never written. -/
theorem c7_fatal_paths (argv : List String) (a : Args)
    (file : Option (List (String × String))) (server : List Bytes)
    (orc : Bytes → Nat → AttemptOutcome)
    (hparse : parse_arguments argv = .ok a) :
    (runMain argv .authReject file server orc).exitCode = 1 ∧
    (runMain argv .authReject file server orc).saved = none ∧
    (runMain argv .authReject file server orc).log.getLast? = some .errAuth ∧
    (runMain argv .hostFail file server orc).exitCode = 1 ∧
    (runMain argv .hostFail file server orc).saved = none ∧
    (runMain argv .hostFail file server orc).log.getLast? = some .errHost ∧
    Ev.errAuth ≠ Ev.errHost := by
  cases file <;> simp [runMain, hparse, List.getLast?]

/-- Witness for C7 at a concrete invocation. -/
theorem c7_fatal_paths_witness :
    (runMain ["fetch.py", "h", "u", "p"] .authReject none [[49]]
      (fun _ _ => .abortExn)).exitCode = 1 ∧
    (runMain ["fetch.py", "h", "u", "p"] .authReject none [[49]]
      (fun _ _ => .abortExn)).saved = none ∧
    (runMain ["fetch.py", "h", "u", "p"] .authReject none [[49]]
      (fun _ _ => .abortExn)).log.getLast? = some .errAuth ∧
    (runMain ["fetch.py", "h", "u", "p"] .hostFail none [[49]]
      (fun _ _ => .abortExn)).exitCode = 1 ∧
    (runMain ["fetch.py", "h", "u", "p"] .hostFail none [[49]]
      (fun _ _ => .abortExn)).saved = none ∧
    (runMain ["fetch.py", "h", "u", "p"] .hostFail none [[49]]
      (fun _ _ => .abortExn)).log.getLast? = some .errHost ∧
    Ev.errAuth ≠ Ev.errHost :=
  c7_fatal_paths ["fetch.py", "h", "u", "p"] ⟨"h", "u", "p", "Inbox", 993⟩ none [[49]]
    (fun _ _ => .abortExn) (by decide)

lemma runMain_connOk_eq (argv : List String) (a : Args) (file : List (String × String))
    (server : List Bytes) (orc : Bytes → Nat → AttemptOutcome)
    (hparse : parse_arguments argv = .ok a)
    (hdec : ∀ u ∈ server, (pyDecodeStrict u).isSome) :
    ∃ out,
      save_store (runFetchLoop orc 3 30 server.dedup (load_storePure (some file))).store
        = some out ∧
      runMain argv .connOk (some file) server orc =
        ⟨0, some out,
         [Ev.infoLoaded file.length, .infoLoginAttempt, .infoLoginOk,
          .infoFetching a.mailbox, .infoCounts server.dedup.length server.dedup.length] ++
           (runFetchLoop orc 3 30 server.dedup (load_storePure (some file))).events ++
           [.infoCompleted server.dedup.length],
         server.dedup, false⟩ := by
  have hnew : (server.dedup.filter
      (fun u => !(storeKeys (load_storePure (some file))).contains (.vbytes u)))
      = server.dedup := by
    apply List.filter_eq_self.mpr
    intro u hu
    rw [vbytes_not_mem_load]
    rfl
  have hdec' : ∀ u ∈ server.dedup, (pyDecodeStrict u).isSome := by
    intro u hu
    exact hdec u (List.mem_dedup.mp hu)
  have hfc := runFetchLoop_fetched orc 3 30 server.dedup (load_storePure (some file)) hdec'
  have hall := allStr_runFetchLoop orc 3 30 server.dedup (load_storePure (some file))
    (allStr_load _)
  have hsave := save_store_isSome hall
  refine ⟨_, hsave, ?_⟩
  simp only [runMain, hparse]
  rw [hnew, hfc.2, hsave]
  simp [hfc.1]

/-- C5: when every fetch attempt for a UID fails, the retry fetch makes
exactly timeout_limit + 1 attempts, logs the terminal failure, and
returns no result; in the run, the UID's decoded key is absent from the
saved store while the run still completes with exit status 0, fetches the
remaining UIDs, and persists the store. -/
theorem c5_retry_exhaustion (orc : Bytes → Nat → AttemptOutcome) (uid : Bytes)
    (tl tw : Nat) (argv : List String) (a : Args)
    (file : List (String × String)) (server : List Bytes) (s : String)
    (hparse : parse_arguments argv = .ok a)
    (hfail : ∀ i, isSuccess (orc uid i) = none)
    (hu : uid ∈ server)
    (hs : pyDecodeStrict uid = some s)
    (hnotin : ∀ p ∈ file, p.1 ≠ s)
    (hdec : ∀ u ∈ server, (pyDecodeStrict u).isSome)
    (huniq : ∀ u ∈ server, pyDecodeStrict u = some s → u = uid) :
    (fetch_email_header (orc uid) uid 0 tl tw).result = none ∧
    (fetch_email_header (orc uid) uid 0 tl tw).attempts = tl + 1 ∧
    Ev.errTerminal uid tl ∈ (fetch_email_header (orc uid) uid 0 tl tw).events ∧
    (runMain argv .connOk (some file) server orc).exitCode = 0 ∧
    (∃ out, (runMain argv .connOk (some file) server orc).saved = some out ∧
      ∀ q ∈ out, q.1 ≠ s) ∧
    Ev.errTerminal uid 3 ∈ (runMain argv .connOk (some file) server orc).log ∧
    uid ∈ (runMain argv .connOk (some file) server orc).fetched ∧
    (runMain argv .connOk (some file) server orc).crashed = false := by
  have hfeq : ∀ tl' tw', fetch_email_header (orc uid) uid 0 tl' tw'
      = fetchAux (orc uid) uid tl' tw' (tl' + 1) 0 := by
    intro tl' tw'
    simp [fetch_email_header]
  have hA := fetchAux_allFail (orc uid) uid tl tw hfail (tl + 1) 0
  have hA3 := fetchAux_allFail (orc uid) uid 3 30 hfail 4 0
  have hdec' : ∀ u ∈ server.dedup, (pyDecodeStrict u).isSome := by
    intro u hud
    exact hdec u (List.mem_dedup.mp hud)
  obtain ⟨out, hsave, hrm⟩ := runMain_connOk_eq argv a file server orc hparse hdec
  have hall := allStr_runFetchLoop orc 3 30 server.dedup (load_storePure (some file))
    (allStr_load _)
  have hnotin0 : PyVal.vstr s ∉ storeKeys (load_storePure (some file)) := by
    intro hmem
    obtain ⟨p, hp, hk⟩ := List.mem_map.mp hmem
    obtain ⟨q, hq, rfl⟩ := List.mem_map.mp hp
    exact hnotin q hq (by injection hk)
  have hnone : ∀ u ∈ server.dedup, pyDecodeStrict u = some s →
      (fetch_email_header (orc u) u 0 3 30).result = none ∨
      (fetch_email_header (orc u) u 0 3 30).result = some [] := by
    intro u hud hus
    have huu : u = uid := huniq u (List.mem_dedup.mp hud) hus
    subst huu
    exact Or.inl (by rw [hfeq]; exact hA3.1)
  have hni := notInserted_runFetchLoop orc 3 30 server.dedup
    (load_storePure (some file)) s hnotin0 hnone
  have hterm : Ev.errTerminal uid 3 ∈
      (runFetchLoop orc 3 30 server.dedup (load_storePure (some file))).events := by
    refine events_mem_runFetchLoop orc 3 30 server.dedup _ uid _ hdec'
      (List.mem_dedup.mpr hu) ?_
    rw [hfeq]
    exact hA3.2.2
  refine ⟨by rw [hfeq]; exact hA.1, by rw [hfeq]; exact hA.2.1,
    by rw [hfeq]; exact hA.2.2, by rw [hrm], ?_, ?_, ?_, by rw [hrm]⟩
  · refine ⟨out, by rw [hrm], ?_⟩
    intro q hq hqs
    exact hni ((save_store_keys hall hsave s).mp ⟨q, hq, hqs⟩)
  · rw [hrm]
    simp only [MainOut.log, List.mem_append]
    exact Or.inl (Or.inr hterm)
  · rw [hrm]
    exact List.mem_dedup.mpr hu

/-- Witness for C5: a concrete always-aborting oracle, a two-UID server
reply, and a store already holding the other UID. -/
theorem c5_retry_exhaustion_witness :
    (fetch_email_header ((fun _ _ => AttemptOutcome.abortExn) ([49] : Bytes)) [49] 0 3 30).attempts
      = 4 ∧
    (runMain ["fetch.py", "h", "u", "p"] .connOk (some [("2", "x")]) [[49], [50]]
      (fun _ _ => .abortExn)).exitCode = 0 ∧
    (∃ out, (runMain ["fetch.py", "h", "u", "p"] .connOk (some [("2", "x")]) [[49], [50]]
      (fun _ _ => .abortExn)).saved = some out ∧ ∀ q ∈ out, q.1 ≠ "1") ∧
    Ev.errTerminal [49] 3 ∈ (runMain ["fetch.py", "h", "u", "p"] .connOk (some [("2", "x")])
      [[49], [50]] (fun _ _ => .abortExn)).log := by
  have h := c5_retry_exhaustion (fun _ _ => .abortExn) [49] 3 30
    ["fetch.py", "h", "u", "p"] ⟨"h", "u", "p", "Inbox", 993⟩ [("2", "x")] [[49], [50]] "1"
    (by decide) (fun i => rfl) (by decide) (by decide) (by decide) (by decide) (by decide)
  exact ⟨h.2.1, h.2.2.2.1, h.2.2.2.2.1, h.2.2.2.2.2.1⟩

/-- C4: when the first k attempts fail transiently and attempt k+1
succeeds with a nonempty payload, the retry fetch returns that payload
after exactly k+1 attempts and k sleeps — the trace shows each sleep
immediately before a retry and no sleep before the first attempt — and
the UID's decoded key is recorded in the store by the run's loop. -/
theorem c4_retry_bound (orc : Bytes → Nat → AttemptOutcome) (uid : Bytes)
    (tl tw k : Nat) (p : Bytes) (st : Store) (rest : List Bytes) (s : String)
    (hk : k ≤ tl)
    (hfail : ∀ i, i < k → isSuccess (orc uid i) = none)
    (hsucc : orc uid k = .reply "OK" (some p))
    (hne : p ≠ [])
    (hs : pyDecodeStrict uid = some s) :
    (fetch_email_header (orc uid) uid 0 tl tw).result = some p ∧
    (fetch_email_header (orc uid) uid 0 tl tw).attempts = k + 1 ∧
    (fetch_email_header (orc uid) uid 0 tl tw).sleeps = k ∧
    (fetch_email_header (orc uid) uid 0 tl tw).events =
      failTrace uid (orc uid) tl tw 0 k ++
        (if 0 < k then [Ev.infoRetry k tl, Ev.sleep tw] else []) ++ [Ev.infoFetched uid] ∧
    PyVal.vstr s ∈ storeKeys (runFetchLoop orc tl tw (uid :: rest) st).store := by
  have hs0 : isSuccess (orc uid (0 + k)) = some p := by
    rw [Nat.zero_add, hsucc]
    simp [isSuccess]
  have hf0 : ∀ i, i < k → isSuccess (orc uid (0 + i)) = none := by
    intro i hi
    rw [Nat.zero_add]
    exact hfail i hi
  have hm := fetchAux_succAt (orc uid) uid tl tw p k 0 (tl + 1) (by omega) hf0 hs0
  rw [Nat.zero_add] at hm
  have hfeq : fetch_email_header (orc uid) uid 0 tl tw
      = fetchAux (orc uid) uid tl tw (tl + 1) 0 := by
    simp [fetch_email_header]
  have hres : (fetch_email_header (orc uid) uid 0 tl tw).result = some p := by
    rw [hfeq, hm]
  refine ⟨hres, by rw [hfeq, hm], ?_, by rw [hfeq, hm], ?_⟩
  · rw [hfeq, hm]
    simp
  · simp only [runFetchLoop, hres, hs]
    rw [if_neg hne]
    exact keysMono_runFetchLoop orc tl tw rest _ (mem_storeKeys_insert.mpr (Or.inr rfl))

/-- Witness for C4: one abort then success, so two attempts and one sleep. -/
theorem c4_retry_bound_witness :
    (fetch_email_header ((fun (_ : Bytes) (i : Nat) =>
        if i = 0 then AttemptOutcome.abortExn else .reply "OK" (some [72])) ([49] : Bytes))
      [49] 0 3 30).result = some [72] ∧
    (fetch_email_header ((fun (_ : Bytes) (i : Nat) =>
        if i = 0 then AttemptOutcome.abortExn else .reply "OK" (some [72])) ([49] : Bytes))
      [49] 0 3 30).attempts = 2 ∧
    (fetch_email_header ((fun (_ : Bytes) (i : Nat) =>
        if i = 0 then AttemptOutcome.abortExn else .reply "OK" (some [72])) ([49] : Bytes))
      [49] 0 3 30).sleeps = 1 ∧
    PyVal.vstr "1" ∈ storeKeys (runFetchLoop
      (fun (_ : Bytes) (i : Nat) => if i = 0 then AttemptOutcome.abortExn
        else .reply "OK" (some [72])) 3 30 [[49]] []).store := by
  have h := c4_retry_bound
    (fun (_ : Bytes) (i : Nat) => if i = 0 then AttemptOutcome.abortExn
      else .reply "OK" (some [72]))
    [49] 3 30 1 [72] [] [] "1" (by decide) (by decide) (by decide) (by decide) (by decide)
  exact ⟨h.1, h.2.1, h.2.2.1, h.2.2.2.2⟩

/-- C6 (amended): an attempt's payload is returned immediately exactly
when the status is OK and the payload can be extracted, even when it is
empty; a non-returning attempt (error status, malformed OK reply, raised
abort, other raised error) is counted and the loop continues with the
remaining budget; the warning line is logged exactly for the error-status
case. -/
theorem c6_attempt_classification (orc : Nat → AttemptOutcome) (uid : Bytes) (tl tw : Nat) :
    (∀ p, orc 0 = .reply "OK" (some p) →
      fetch_email_header orc uid 0 tl tw = ⟨some p, 1, 0, [.infoFetched uid]⟩) ∧
    (isSuccess (orc 0) = none →
      fetch_email_header orc uid 0 tl tw =
        ⟨(fetchAux orc uid tl tw tl 1).result,
         (fetchAux orc uid tl tw tl 1).attempts + 1,
         (fetchAux orc uid tl tw tl 1).sleeps,
         attemptEv uid (orc 0) ++ (fetchAux orc uid tl tw tl 1).events⟩) ∧
    (∀ s pl, attemptEv uid (.reply s pl) = [.warnProblem uid] ↔ s ≠ "OK") := by
  refine ⟨?_, ?_, ?_⟩
  · intro p h
    have hs : isSuccess (orc 0) = some p := by
      rw [h]
      simp [isSuccess]
    simp [fetch_email_header, fetchAux, hs]
  · intro h
    simp [fetch_email_header, fetchAux, h]
  · intro s pl
    by_cases hsok : s = "OK"
    · subst hsok
      cases pl <;> simp [attemptEv]
    · simp [attemptEv, hsok]

/-- Witness for C6 (amended) at concrete outcomes. -/
theorem c6_attempt_classification_witness :
    fetch_email_header (fun _ => AttemptOutcome.reply "OK" (some [72])) [49] 0 3 30
      = ⟨some [72], 1, 0, [.infoFetched [49]]⟩ ∧
    (attemptEv [49] (.reply "NO" none) = [.warnProblem [49]] ↔ ("NO" : String) ≠ "OK") :=
  ⟨(c6_attempt_classification (fun _ => .reply "OK" (some [72])) [49] 3 30).1 [72] rfl,
   (c6_attempt_classification (fun _ => .reply "OK" (some [72])) [49] 3 30).2.2 "NO" none⟩

/-- C8 (amended): a successfully fetched nonempty header is recorded as
the text obtained by decoding the raw bytes with invalid sequences
*dropped* (Python errors='ignore', e.g. bytes 0x41 0xFF become "A"), and
header decoding never crashes the run for any byte sequence: when every
server UID decodes, the loop finishes regardless of header contents. -/
theorem c8_ignore_decoding (orc : Bytes → Nat → AttemptOutcome) (tl tw : Nat)
    (uid : Bytes) (rest uids : List Bytes) (st : Store) (h : Bytes) (s : String)
    (hres : (fetch_email_header (orc uid) uid 0 tl tw).result = some h)
    (hne : h ≠ [])
    (hs : pyDecodeStrict uid = some s)
    (hdec : ∀ u ∈ uids, (pyDecodeStrict u).isSome) :
    (runFetchLoop orc tl tw (uid :: rest) st).store =
      (runFetchLoop orc tl tw rest (storeInsert st (.vstr s) (pyDecodeIgnore h))).store ∧
    (runFetchLoop orc tl tw uids st).crashed = false ∧
    pyDecodeIgnore [65, 255] = "A" := by
  refine ⟨?_, (runFetchLoop_fetched orc tl tw uids st hdec).2, by decide⟩
  simp only [runFetchLoop, hres, hs]
  rw [if_neg hne]

/-- Witness for C8 (amended) at a concrete run. -/
theorem c8_ignore_decoding_witness :
    (runFetchLoop (fun (_ : Bytes) (_ : Nat) => AttemptOutcome.reply "OK" (some [65, 255]))
        3 30 [[49]] []).store =
      (runFetchLoop (fun (_ : Bytes) (_ : Nat) => AttemptOutcome.reply "OK" (some [65, 255]))
        3 30 [] (storeInsert [] (.vstr "1") (pyDecodeIgnore [65, 255]))).store ∧
    (runFetchLoop (fun (_ : Bytes) (_ : Nat) => AttemptOutcome.reply "OK" (some [65, 255]))
        3 30 [[49]] []).crashed = false ∧
    pyDecodeIgnore [65, 255] = "A" :=
  c8_ignore_decoding (fun _ _ => .reply "OK" (some [65, 255])) 3 30 [49] [] [[49]] []
    [65, 255] "1" (by decide) (by decide) (by decide) (by decide)

/-- Witness for C10 at the out-of-range numeric value "70000". -/
theorem c10_out_of_range_port_as_mailbox_witness :
    parse_arguments ["fetch.py", "h", "u", "p", "70000"]
      = .ok ⟨"h", "u", "p", "70000", 993⟩ ∧
    parse_arguments ["fetch.py", "h", "u", "p", "70000", "notaport"] = .badPort := by
  have h := c10_out_of_range_port_as_mailbox "h" "u" "p" "70000" 70000 (by decide) (by decide)
  exact ⟨h.1, h.2.1 "notaport" (by decide)⟩

end ImapFetch
